import Mathlib

/-!
Shallow embedding of the Orion Finance actor simulation (`main.py`,
`simulator_integration.py`) and proofs about it.

Naming map between the specification's vocabulary and the source:
Submitter = Curator, Holder = Vault, Aggregator = OrionWorker, Sink = MetaVault;
`IntentSubmitted` = `curator_action`, `StateRequested` = `worker_request`,
`DebitRequested` = `tvl_transfer`, `BalanceSet` = `update_tvl`.

Python floats are modelled as rationals; Python dicts keyed by strings or
vault indices are modelled as insertion-ordered association lists.
-/

namespace Orion

/-- Assets are identified by name (the keys of a curator portfolio dict). -/
abbrev Asset := String

/-- A decrypted intent payload: asset name to weight, as produced by
`json.loads` of a curator portfolio (dict, hence unique keys). -/
abbrev Intent := List (Asset × ℚ)

/-- A column of the portfolios matrix: asset name to allocated amount
(a curator portfolio already multiplied by the transferred TVL). -/
abbrev Column := List (Asset × ℚ)

/-- The two recoverable cryptographic failure modes of `decrypt_json_dict`:
`InvalidTag` from AES-GCM, and a JSON parse failure of the decrypted bytes. -/
inductive CryptoError where
  | authenticationError
  | malformedPayload
deriving DecidableEq, Repr

/-- An encrypted portfolio blob as it travels from Curator to Vault to Worker.
Modelled from the spec: the AES-GCM ciphertext produced by the external
`cryptography` library is opaque; what is observable is which key encrypted
it, what payload it carries, whether it has been corrupted (`tampered`), and
whether its decrypted bytes would fail to parse as JSON (`unparsable`). -/
structure Blob where
  keyId : Nat
  payload : Intent
  tampered : Bool
  unparsable : Bool
deriving DecidableEq

/-- Modelled from the spec: AES-GCM decryption (external `cryptography`
library, not in `src/`), per the AEAD contract in spec section 4.1: a
corrupted blob or a wrong key fails tag verification with
`AuthenticationError`; a blob that decrypts but whose bytes do not parse as
the expected structure fails with `MalformedPayloadError`; otherwise the
payload comes back. -/
def decryptBlob (keyId : Nat) (b : Blob) : Except CryptoError Intent :=
  if b.tampered then .error .authenticationError
  else if b.keyId ≠ keyId then .error .authenticationError
  else if b.unparsable then .error .malformedPayload
  else .ok b.payload

/-- Insertion-ordered dict update, as Python dict assignment `d[k] = v`:
an existing key keeps its position and gets the new value, a new key is
appended at the end. -/
def dictInsert {α β : Type} [DecidableEq α] (d : List (α × β)) (k : α) (v : β) :
    List (α × β) :=
  if d.any (fun p => p.1 = k) then
    d.map (fun p => if p.1 = k then (k, v) else p)
  else d ++ [(k, v)]

/-- Python dict lookup `d.get(k)` on an association list. -/
def dictGet {α β : Type} [DecidableEq α] (d : List (α × β)) (k : α) : Option β :=
  (d.find? (fun p => p.1 = k)).map Prod.snd

/- ## Vault (Holder) node, `main.py` lines 122-156 -/

/-- The mutable state of a Vault node (`main.py` `build_graph`):
`tvl` is the idle balance, `internal_ledger_last_state` the last stored
encrypted portfolio (or `None`). -/
structure VaultState where
  tvl : ℚ
  internal_ledger_last_state : Option Blob
deriving DecidableEq

/-- Messages a Vault can receive. The four recognised kinds correspond to
the `msg["type"]` strings in `vault_node`; `unknown` stands for any other
kind (the dispatch has no else branch). -/
inductive VaultMsg where
  | curator_action (encrypted_portfolio : Blob)
  | worker_request
  | tvl_transfer (amount : ℚ)
  | update_tvl (amount : ℚ)
  | unknown (kind : String)
deriving DecidableEq

/-- Messages the worker receives on its own queue: vault state replies
(`{"from": name, "type": "vault_state", "state": state}`); `other` stands
for any message of a different type (skipped by the collection loop). -/
inductive WorkerMsg where
  | vault_state (sender : Nat) (st : VaultState)
  | other (kind : String)
deriving DecidableEq

/-- The `tvl_transfer` branch of `vault_node` (`main.py` lines 140-147):
returns the new TVL and the amount actually transferred (the local
`transfer_amount` after clamping). -/
def vault_debit (tvl amount : ℚ) : ℚ × ℚ :=
  let transfer_amount := if amount > tvl then tvl else amount
  (tvl - transfer_amount, transfer_amount)

/-- One dispatch step of `vault_node` (`main.py` lines 124-156) for the vault
with 1-based index `idx` (the vault's name `Vault{idx}` appears as the
`from` field of its state reply): the new state and the messages sent to the
worker. There is no else branch in the source, so an unrecognised kind
changes nothing. -/
def vault_dispatch (idx : Nat) (s : VaultState) (m : VaultMsg) :
    VaultState × List WorkerMsg :=
  match m with
  | .curator_action blob => ({ s with internal_ledger_last_state := some blob }, [])
  | .worker_request => (s, [.vault_state idx s])
  | .tvl_transfer amount => ({ s with tvl := (vault_debit s.tvl amount).1 }, [])
  | .update_tvl amount => ({ s with tvl := amount }, [])
  | .unknown _ => (s, [])

/-- The Vault's perpetual receive loop applied to a finite message sequence:
final state and all worker-bound messages sent along the way. -/
def vault_run (idx : Nat) (s : VaultState) :
    List VaultMsg → VaultState × List WorkerMsg
  | [] => (s, [])
  | m :: rest =>
      let step := vault_dispatch idx s m
      let cont := vault_run idx step.1 rest
      (cont.1, step.2 ++ cont.2)

/- ## Worker (Aggregator) node, `main.py` lines 159-277 -/

/-- Lookup of an asset's amount in a column with missing rows read as 0:
the effect of `pd.concat(..., axis=1).fillna(0)` on one column. -/
def lookupW (c : Column) (a : Asset) : ℚ :=
  ((c.find? (fun p => p.1 = a)).map Prod.snd).getD 0

/-- The row index of the portfolios matrix: the union (first-occurrence
order, deduplicated) of the assets appearing in any column, as built by
`pd.concat(portfolio_dfs, axis=1)`. -/
def matrixAssets (M : List Column) : List Asset :=
  ((M.map (fun c => c.map Prod.fst)).flatten).dedup

/-- One column's previous active balance: `portfolios_matrix.sum(axis=0)`
for that column (`main.py` line 183). -/
def colActive (rows : List Asset) (c : Column) : ℚ :=
  (rows.map (fun a => lookupW c a)).sum

/-- One column's realized P&L: the dot product of the column with the
per-asset sampled returns, `portfolios_matrix.T.dot(R_t)` for that column
(`main.py` line 180). -/
def colPnL (rows : List Asset) (R : Asset → ℚ) (c : Column) : ℚ :=
  (rows.map (fun a => lookupW c a * R a)).sum

/-- The settlement step (`main.py` lines 165-195): given the previous
cycle's matrix and the sampled per-asset returns, the `update_tvl`
messages sent. The source iterates `for i, tvl in enumerate(updated_tvl)`
and addresses `Vault{i + 1}`, i.e. by column position, not by the identity
of the vault the column came from. -/
def settle_sends (M : List Column) (R : Asset → ℚ) : List (Nat × VaultMsg) :=
  let rows := matrixAssets M
  M.enum.map (fun p =>
    (p.1 + 1, VaultMsg.update_tvl (colActive rows p.2 + colPnL rows R p.2)))

/-- The gather loop (`main.py` lines 206-211): consume exactly `n` messages
from the worker's queue, recording `vault_state` replies in a dict keyed by
sender. If the queue runs dry the source blocks forever on `await`; the
model returns early, and every theorem about `gather` supplies a long
enough queue. -/
def gather : Nat → List WorkerMsg → List (Nat × VaultState) →
    List (Nat × VaultState) × List WorkerMsg
  | 0, queue, acc => (acc, queue)
  | _ + 1, [], acc => (acc, [])
  | n + 1, m :: queue, acc =>
      match m with
      | .vault_state sender st => gather n queue (dictInsert acc sender st)
      | .other _ => gather n queue acc

/-- The per-vault body of the decrypt-and-weight loop (`main.py` lines
216-252) for `Vault{idx}`: if a ciphertext is stored, decrypt it with
`key_array[idx - 1]` (the decryption error, if any, propagates — there is
no try/except in the source); then, if the idle TVL is strictly positive,
contribute `(transfer amount, decrypted portfolio)`, else contribute
nothing. -/
def process_vault (key_array : List Nat) (idx : Nat) (vs : VaultState) :
    Except CryptoError (Option (ℚ × Intent)) :=
  match vs.internal_ledger_last_state with
  | none => .ok none
  | some blob =>
      match decryptBlob (key_array.getD (idx - 1) 0) blob with
      | .error e => .error e
      | .ok portfolio =>
          if vs.tvl > 0 then .ok (some (vs.tvl, portfolio))
          else .ok none

/-- The decrypt-and-weight loop over the gathered vault states, in dict
iteration order: on success, the list of contributions `(vault index,
transferred amount, portfolio)`. The first decryption failure aborts the
loop (and with it the worker task), as in the source — but each
contributing vault's `tvl_transfer` was already sent inside its own
iteration (`main.py` line 240) before a later vault's decrypt can fail, so
the error carries the contributions (and hence the debits) made before the
failing vault. -/
def process_states (key_array : List Nat) :
    List (Nat × VaultState) →
      Except (List (Nat × ℚ × Intent) × CryptoError) (List (Nat × ℚ × Intent))
  | [] => .ok []
  | (idx, vs) :: rest =>
      match process_vault key_array idx vs with
      | .error e => .error ([], e)
      | .ok c =>
          match process_states key_array rest with
          | .error (cs, e) =>
              match c with
              | none => .error (cs, e)
              | some (t, p) => .error ((idx, t, p) :: cs, e)
          | .ok restC =>
              match c with
              | none => .ok restC
              | some (t, p) => .ok ((idx, t, p) :: restC)

/-- Weighting a decrypted portfolio by the transferred TVL:
`df = df * transfer_amount` (`main.py` line 246). -/
def scaleIntent (t : ℚ) (p : Intent) : Column :=
  p.map (fun q => (q.1, q.2 * t))

/-- The final portfolio: per-asset row sums of the matrix,
`portfolios_matrix.sum(axis=1)` (`main.py` line 263). -/
def final_portfolio (M : List Column) : List (Asset × ℚ) :=
  (matrixAssets M).map (fun a => (a, (M.map (fun c => lookupW c a)).sum))

/-- The observable outcome of one worker cycle after the settlement step:
the stored matrix (`None` if no vault contributed), the `tvl_transfer`
messages sent to vaults, the portfolio sent to the MetaVault (if any), and
the unconsumed remainder of the worker's queue. -/
structure CycleResult where
  portfolios_matrix : Option (List Column)
  debit_sends : List (Nat × VaultMsg)
  final : Option (List (Asset × ℚ))
  restQueue : List WorkerMsg
deriving DecidableEq

/-- One worker cycle from the gather step on (`main.py` lines 197-277):
request/collect `n` vault states, decrypt and weight, build the matrix and
send the final portfolio (or clear the matrix if nobody contributed). A
decryption failure escapes the cycle as `.error`, carrying the
`tvl_transfer` messages already sent to the vaults processed before the
failure (those sends happened inside earlier loop iterations and stand);
no matrix is stored and no portfolio is sent. -/
def worker_cycle (key_array : List Nat) (n : Nat) (queue : List WorkerMsg) :
    Except (List (Nat × VaultMsg) × CryptoError) CycleResult :=
  let g := gather n queue []
  match process_states key_array g.1 with
  | .error (cs, e) =>
      .error (cs.map (fun c => (c.1, VaultMsg.tvl_transfer c.2.1)), e)
  | .ok contribs =>
      let portfolio_dfs := contribs.map (fun c => scaleIntent c.2.1 c.2.2)
      let sends := contribs.map (fun c => (c.1, VaultMsg.tvl_transfer c.2.1))
      if portfolio_dfs.isEmpty then
        .ok ⟨none, sends, none, g.2⟩
      else
        .ok ⟨some portfolio_dfs, sends,
             some (final_portfolio portfolio_dfs), g.2⟩

/- ## AEAD codec framing, `main.py` lines 29-49 -/

/-- Modelled from the spec: the AES-GCM primitive of the external
`cryptography` library (not part of this repository), as a pair of byte
level functions `(key, nonce, message) -> ciphertext` and
`(key, nonce, ciphertext) -> message or failure`. Bytes are modelled as
naturals. -/
structure AEADModel where
  enc : List Nat → List Nat → List Nat → List Nat
  dec : List Nat → List Nat → List Nat → Except CryptoError (List Nat)

/-- Modelled from the spec: the JSON serialization (`json.dumps` /
`json.loads` plus UTF-8, from the Python standard library, not part of this
repository) of a structured payload of type `α`. -/
structure CodecModel (α : Type) where
  ser : α → List Nat
  deser : List Nat → Except CryptoError α

/-- `encrypt_json_dict` (`main.py` lines 29-38): serialize the payload,
encrypt it under the key with a fresh 12-byte nonce, and return
`nonce ++ ciphertext`. The nonce, drawn by `os.urandom(12)` in the source,
is an explicit argument here. -/
def encrypt_json_dict {α : Type} (A : AEADModel) (C : CodecModel α)
    (aes_key nonce : List Nat) (data : α) : List Nat :=
  nonce ++ A.enc aes_key nonce (C.ser data)

/-- `decrypt_json_dict` (`main.py` lines 41-49): split the blob at byte 12
into nonce and ciphertext, decrypt, and parse the decrypted bytes. -/
def decrypt_json_dict {α : Type} (A : AEADModel) (C : CodecModel α)
    (aes_key encrypted_data : List Nat) : Except CryptoError α :=
  let nonce := encrypted_data.take 12
  let ciphertext := encrypted_data.drop 12
  match A.dec aes_key nonce ciphertext with
  | .error e => .error e
  | .ok decrypted_bytes => C.deser decrypted_bytes

/- ## State projection, `simulator_integration.py` -/

/-- The vault-related fields of `SimulatorState`: the latest observed state
per vault, and the last non-zero TVL seen per vault. -/
structure SimState where
  vault_states : List (String × VaultState)
  last_nonzero_tvl : List (String × ℚ)
deriving DecidableEq

/-- `SimulatorState.update_state` for a vault node
(`simulator_integration.py` lines 29-34): store the snapshot and, when its
TVL is strictly positive, remember it as the last non-zero TVL. -/
def update_state_vault (s : SimState) (name : String) (st : VaultState) :
    SimState :=
  { vault_states := dictInsert s.vault_states name st,
    last_nonzero_tvl :=
      if st.tvl > 0 then dictInsert s.last_nonzero_tvl name st.tvl
      else s.last_nonzero_tvl }

/-- The per-vault display TVL computed by `SimulatorState.get_state`
(`simulator_integration.py` lines 54-62): the current TVL when strictly
positive, otherwise the last non-zero TVL if one was recorded, otherwise
the current TVL. Returns `none` for a vault never observed. -/
def get_state_tvl (s : SimState) (name : String) : Option ℚ :=
  (dictGet s.vault_states name).map (fun st =>
    if st.tvl > 0 then st.tvl
    else (dictGet s.last_nonzero_tvl name).getD st.tvl)

/- ## MetaVault (Sink) node, `main.py` lines 280-290 -/

/-- The MetaVault's state: the last received final portfolio. -/
structure MetaVaultState where
  final_portfolio : Option (List (Asset × ℚ))
deriving DecidableEq

/-- Messages the MetaVault can receive. -/
inductive MetaVaultMsg where
  | final_portfolio (portfolio : List (Asset × ℚ))
  | unknown (kind : String)
deriving DecidableEq

/-- One dispatch step of `metavault_node`: a `final_portfolio` message
overwrites the stored portfolio wholesale; anything else is ignored (no
else branch in the source). -/
def metavault_dispatch (s : MetaVaultState) (m : MetaVaultMsg) : MetaVaultState :=
  match m with
  | .final_portfolio p => { final_portfolio := some p }
  | .unknown _ => s

/- ## Concrete example data used by witnesses and counterexamples -/

/-- Three curator keys, as in a run with `N_VAULTS = 3`. -/
def exKeys : List Nat := [10, 20, 30]

/-- A well-formed ciphertext for Vault1: encrypted under Curator1's key. -/
def exBlob1 : Blob := ⟨10, [("B", 1)], false, false⟩

/-- A well-formed ciphertext for Vault2: encrypted under Curator2's key. -/
def exBlob2 : Blob := ⟨20, [("A", 1)], false, false⟩

/-- A ciphertext stored at a vault that does not decrypt under the
registered key (wrong key id). -/
def exBadBlob : Blob := ⟨99, [("A", 1)], false, false⟩

/-- A gather queue for one cycle: Vault1 and Vault3 hold no intent, Vault2
holds a decryptable intent `{A: 1}` with idle TVL 50. -/
def exQueue : List WorkerMsg :=
  [.vault_state 1 ⟨40, none⟩, .vault_state 2 ⟨50, some exBlob2⟩,
   .vault_state 3 ⟨10, none⟩]

/-- A gather queue in which Vault1 holds a decryptable intent and is
processed first, Vault2's stored ciphertext fails to decrypt, and Vault3
holds a decryptable intent that is never reached. -/
def exQueuePartial : List WorkerMsg :=
  [.vault_state 1 ⟨40, some exBlob1⟩, .vault_state 2 ⟨50, some exBadBlob⟩,
   .vault_state 3 ⟨10, some exBlob2⟩]

/-- A per-asset return sample: 2 percent on asset A, zero elsewhere. -/
def exReturns : Asset → ℚ := fun a => if a = "A" then 1 / 50 else 0

/-- A trivially correct AEAD instance used to witness the round-trip
theorem at a concrete input. -/
def idAEAD : AEADModel := ⟨fun _ _ m => m, fun _ _ c => .ok c⟩

/-- A trivially correct serializer for naturals used to witness the
round-trip theorem at a concrete input. -/
def natCodec : CodecModel Nat := ⟨fun q => [q], fun l => .ok (l.headD 0)⟩

/- ## Helper lemmas -/

theorem lookupW_cons (x : Asset × ℚ) (c : Column) (a : Asset) :
    lookupW (x :: c) a = if x.1 = a then x.2 else lookupW c a := by
  by_cases h : x.1 = a <;> simp [lookupW, List.find?, h]

theorem lookupW_map_pair (l : List Asset) (f : Asset → ℚ) (a : Asset) :
    lookupW (l.map (fun x => (x, f x))) a = if a ∈ l then f a else 0 := by
  induction l with
  | nil => simp [lookupW]
  | cons x xs ih =>
      rw [List.map_cons, lookupW_cons]
      by_cases h : x = a
      · subst h
        simp
      · simp only [h, if_false, ih, List.mem_cons]
        have : ¬ a = x := fun hax => h hax.symm
        simp [this]

theorem lookupW_eq_zero_of_not_mem (c : Column) (a : Asset)
    (h : a ∉ c.map Prod.fst) : lookupW c a = 0 := by
  unfold lookupW
  rw [List.find?_eq_none.mpr]
  · rfl
  · intro x hx
    simp only [decide_eq_true_eq]
    intro hxa
    exact h (List.mem_map.mpr ⟨x, hx, hxa⟩)

theorem mem_matrixAssets_iff (M : List Column) (a : Asset) :
    a ∈ matrixAssets M ↔ ∃ c ∈ M, a ∈ c.map Prod.fst := by
  unfold matrixAssets
  rw [List.mem_dedup, List.mem_flatten]
  constructor
  · rintro ⟨l, hl, hal⟩
    obtain ⟨c, hc, rfl⟩ := List.mem_map.mp hl
    exact ⟨c, hc, hal⟩
  · rintro ⟨c, hc, hac⟩
    exact ⟨c.map Prod.fst, List.mem_map.mpr ⟨c, hc, rfl⟩, hac⟩

theorem final_portfolio_lookup (M : List Column) (a : Asset) :
    lookupW (final_portfolio M) a = (M.map (fun c => lookupW c a)).sum := by
  unfold final_portfolio
  rw [lookupW_map_pair]
  by_cases h : a ∈ matrixAssets M
  · simp [h]
  · rw [if_neg h]
    symm
    apply List.sum_eq_zero
    intro x hx
    obtain ⟨c, hc, rfl⟩ := List.mem_map.mp hx
    apply lookupW_eq_zero_of_not_mem
    intro hac
    exact h ((mem_matrixAssets_iff M a).mpr ⟨c, hc, hac⟩)

theorem dictInsert_of_not_mem {α β : Type} [DecidableEq α]
    (d : List (α × β)) (k : α) (v : β) (h : ∀ p ∈ d, p.1 ≠ k) :
    dictInsert d k v = d ++ [(k, v)] := by
  unfold dictInsert
  rw [if_neg]
  simp only [List.any_eq_true, decide_eq_true_eq]
  push_neg
  exact h

theorem dictGet_dictInsert {α β : Type} [DecidableEq α]
    (d : List (α × β)) (k : α) (v : β) :
    dictGet (dictInsert d k v) k = some v := by
  unfold dictGet dictInsert
  by_cases h : d.any (fun p => p.1 = k)
  · rw [if_pos h]
    induction d with
    | nil => simp at h
    | cons p d2 ih =>
        by_cases hp : p.1 = k
        · rw [List.map_cons, if_pos hp]
          rw [List.find?_cons_of_pos _ (by simp)]
          rfl
        · rw [List.map_cons, if_neg hp]
          rw [List.find?_cons_of_neg _ (by simpa using hp)]
          apply ih
          simpa [List.any_cons, hp] using h
  · rw [if_neg h]
    rw [List.find?_append, List.find?_eq_none.mpr, Option.none_or]
    · rw [List.find?_cons_of_pos _ (by simp)]
      rfl
    · intro x hx
      simp only [decide_eq_true_eq]
      intro hxk
      exact h (List.any_eq_true.mpr ⟨x, hx, by simp [hxk]⟩)

theorem vault_debit_nonneg (tvl amount : ℚ) :
    0 ≤ (vault_debit tvl amount).1 := by
  unfold vault_debit
  by_cases hc : amount > tvl
  · simp [hc]
  · simp only [hc, if_neg, if_false]
    push_neg at hc
    simpa using hc

theorem vault_run_tvl_nonneg (idx : Nat) (s : VaultState) (msgs : List VaultMsg)
    (h0 : 0 ≤ s.tvl)
    (hmsg : ∀ a : ℚ, VaultMsg.update_tvl a ∈ msgs → 0 ≤ a) :
    0 ≤ (vault_run idx s msgs).1.tvl := by
  induction msgs generalizing s with
  | nil => simpa [vault_run] using h0
  | cons m rest ih =>
      have hrest : ∀ a : ℚ, VaultMsg.update_tvl a ∈ rest → 0 ≤ a :=
        fun a ha => hmsg a (List.mem_cons_of_mem m ha)
      cases m with
      | curator_action blob => exact ih _ h0 hrest
      | worker_request => exact ih _ h0 hrest
      | tvl_transfer amount =>
          exact ih _ (vault_debit_nonneg s.tvl amount) hrest
      | update_tvl amount =>
          exact ih _ (hmsg amount (List.mem_cons_self _ _)) hrest
      | unknown kind => exact ih _ h0 hrest

theorem process_vault_ok_some (key_array : List Nat) (idx : Nat)
    (vs : VaultState) (t : ℚ) (p : Intent)
    (h : process_vault key_array idx vs = .ok (some (t, p))) :
    0 < t ∧ t = vs.tvl := by
  unfold process_vault at h
  split at h
  · cases h
  · split at h
    · cases h
    · split at h
      · cases h
        exact ⟨by assumption, rfl⟩
      · cases h

theorem process_vault_none_of_nonpos (key_array : List Nat) (idx : Nat)
    (vs : VaultState) (c : Option (ℚ × Intent))
    (h : process_vault key_array idx vs = .ok c) (htvl : ¬ 0 < vs.tvl) :
    c = none := by
  unfold process_vault at h
  split at h
  · cases h
    rfl
  · split at h
    · cases h
    · split at h
      · cases h
        exact absurd (by assumption) htvl
      · cases h
        rfl

theorem process_states_keys_sub (key_array : List Nat)
    (sts : List (Nat × VaultState)) (contribs : List (Nat × ℚ × Intent))
    (h : process_states key_array sts = .ok contribs) :
    ∀ x ∈ contribs, x.1 ∈ sts.map Prod.fst := by
  induction sts generalizing contribs with
  | nil =>
      simp only [process_states] at h
      cases h
      intro x hx
      simp at hx
  | cons hd tl ih =>
      obtain ⟨idx, vs⟩ := hd
      simp only [process_states] at h
      split at h
      · cases h
      · split at h
        · split at h
          · cases h
          · cases h
        · split at h
          · cases h
            intro x hx
            exact List.mem_cons_of_mem _ (ih _ (by assumption) x hx)
          · cases h
            intro x hx
            rcases List.mem_cons.mp hx with hx1 | hx2
            · subst hx1
              simp
            · exact List.mem_cons_of_mem _ (ih _ (by assumption) x hx2)

theorem process_states_pos (key_array : List Nat)
    (sts : List (Nat × VaultState)) (contribs : List (Nat × ℚ × Intent))
    (h : process_states key_array sts = .ok contribs) :
    ∀ x ∈ contribs, 0 < x.2.1 := by
  induction sts generalizing contribs with
  | nil =>
      simp only [process_states] at h
      cases h
      intro x hx
      simp at hx
  | cons hd tl ih =>
      obtain ⟨idx, vs⟩ := hd
      simp only [process_states] at h
      split at h
      · cases h
      · split at h
        · split at h
          · cases h
          · cases h
        · split at h
          · cases h
            exact ih _ (by assumption)
          · cases h
            intro x hx
            rcases List.mem_cons.mp hx with hx1 | hx2
            · subst hx1
              exact (process_vault_ok_some key_array idx vs _ _ (by assumption)).1
            · exact ih _ (by assumption) x hx2

theorem gather_replies (replies : List (Nat × VaultState)) (rest : List WorkerMsg)
    (acc : List (Nat × VaultState))
    (h : (acc.map Prod.fst ++ replies.map Prod.fst).Nodup) :
    gather replies.length
        (replies.map (fun p => WorkerMsg.vault_state p.1 p.2) ++ rest) acc =
      (acc ++ replies, rest) := by
  induction replies generalizing acc with
  | nil => simp [gather]
  | cons r rs ih =>
      simp only [List.map_cons, List.length_cons, List.cons_append, gather]
      have hdisj := (List.nodup_append.mp h).2.2
      have hnot : ∀ p ∈ acc, p.1 ≠ r.1 := by
        intro p hp hpk
        exact hdisj (List.mem_map.mpr ⟨p, hp, rfl⟩) (by simp [hpk])
      rw [dictInsert_of_not_mem _ _ _ hnot]
      have h2 : ((acc ++ [r]).map Prod.fst ++ rs.map Prod.fst).Nodup := by
        have : (acc ++ [r]).map Prod.fst ++ rs.map Prod.fst =
            acc.map Prod.fst ++ (r.1 :: rs.map Prod.fst) := by
          simp
        rw [this]
        simpa using h
      have h3 := ih (acc ++ [r]) h2
      simpa using h3

/- ## Claim C2 -/

/-- C2 counterexample: the claim says a Holder's balance is never negative
for every sequence of `DebitRequested`/`BalanceSet` messages, but a
`BalanceSet` (`update_tvl`) message carrying a negative amount is written
to the balance unconditionally (`main.py` line 155): from balance 0, the
single message `update_tvl (-1)` leaves the balance at -1. -/
theorem C2_counterexample :
    (vault_run 1 ⟨0, none⟩ [VaultMsg.update_tvl (-1)]).1.tvl < 0 := by
  norm_num [vault_run, vault_dispatch]

/-- C2 amended: starting from a non-negative balance, the balance stays
non-negative provided every `BalanceSet` (`update_tvl`) amount in the
sequence is non-negative; `DebitRequested` (`tvl_transfer`) alone can
never drive it negative thanks to the clamp. -/
theorem C2_balance_nonneg (idx : Nat) (s : VaultState)
    (pre post : List VaultMsg) (h0 : 0 ≤ s.tvl)
    (hmsg : ∀ a : ℚ, VaultMsg.update_tvl a ∈ pre ++ post → 0 ≤ a) :
    0 ≤ (vault_run idx s pre).1.tvl := by
  apply vault_run_tvl_nonneg idx s pre h0
  intro a ha
  exact hmsg a (List.mem_append.mpr (Or.inl ha))

/-- C2 witness: the amended theorem applied to a concrete run. -/
theorem C2_balance_nonneg_witness :
    (0:ℚ) ≤ 10 ∧
    0 ≤ (vault_run 1 ⟨10, none⟩
          [VaultMsg.tvl_transfer 25, VaultMsg.update_tvl 7]).1.tvl :=
  ⟨by norm_num,
   C2_balance_nonneg 1 ⟨10, none⟩
     [VaultMsg.tvl_transfer 25, VaultMsg.update_tvl 7] [] (by norm_num)
     (by intro a ha; simp at ha; simp [ha])⟩

/- ## Claim C5 -/

/-- C5 counterexample: the claim says an unrecognized message kind at a
Holder is a fatal protocol error that terminates the simulation, but
`vault_node`'s dispatch has no else branch (`main.py` lines 127-156): an
unknown kind leaves the state untouched and the loop goes on to process
the next message. -/
theorem C5_counterexample :
    vault_dispatch 1 ⟨10, none⟩ (VaultMsg.unknown "bogus") = (⟨10, none⟩, []) ∧
    vault_run 1 ⟨10, none⟩ [VaultMsg.unknown "bogus", VaultMsg.update_tvl 5] =
      (⟨5, none⟩, []) := by
  constructor
  · rfl
  · norm_num [vault_run, vault_dispatch]

/-- C5 amended: an unrecognized message kind is silently ignored — the
dispatch leaves the Holder state unchanged, sends nothing, and the loop
continues with the remaining messages exactly as if the message had not
been received. -/
theorem C5_unknown_silently_ignored (idx : Nat) (s : VaultState)
    (kind : String) (rest : List VaultMsg) :
    vault_dispatch idx s (.unknown kind) = (s, []) ∧
    vault_run idx s (VaultMsg.unknown kind :: rest) = vault_run idx s rest := by
  constructor
  · rfl
  · simp [vault_run, vault_dispatch]

/- ## Claim C7 -/

/-- C7: for a Holder with balance B processing `DebitRequested{amount}`
(`tvl_transfer`), if amount > B the resulting balance is exactly 0 and the
actually-debited amount (the clamped `transfer_amount` of `main.py` lines
140-147) is B; if amount ≤ B the resulting balance is B - amount. -/
theorem C7_clamp_correct (idx : Nat) (s : VaultState) (amount : ℚ) :
    (amount > s.tvl →
      (vault_dispatch idx s (.tvl_transfer amount)).1.tvl = 0 ∧
      (vault_debit s.tvl amount).2 = s.tvl) ∧
    (amount ≤ s.tvl →
      (vault_dispatch idx s (.tvl_transfer amount)).1.tvl = s.tvl - amount ∧
      (vault_debit s.tvl amount).2 = amount) := by
  constructor
  · intro h
    constructor
    · simp [vault_dispatch, vault_debit, if_pos h]
    · simp [vault_debit, if_pos h]
  · intro h
    have h2 : ¬ amount > s.tvl := not_lt.mpr h
    constructor
    · simp [vault_dispatch, vault_debit, if_neg h2]
    · simp [vault_debit, if_neg h2]

/-- C7 witness: both branches of the clamp theorem at concrete balances. -/
theorem C7_clamp_correct_witness :
    ((7:ℚ) > 5 ∧
      (vault_dispatch 1 ⟨5, none⟩ (.tvl_transfer 7)).1.tvl = 0 ∧
      (vault_debit 5 7).2 = 5) ∧
    ((3:ℚ) ≤ 5 ∧
      (vault_dispatch 1 ⟨5, none⟩ (.tvl_transfer 3)).1.tvl = 5 - 3 ∧
      (vault_debit 5 3).2 = 3) :=
  ⟨⟨by norm_num, (C7_clamp_correct 1 ⟨5, none⟩ 7).1 (by norm_num)⟩,
   ⟨by norm_num, (C7_clamp_correct 1 ⟨5, none⟩ 3).2 (by norm_num)⟩⟩

/- ## Claim C1 -/

/-- C1 counterexample: the claim says a failing ciphertext makes the
Aggregator skip that Holder while the cycle completes for the others, but
the decrypt call in `worker_node` (`main.py` lines 225-227) has no
try/except: with Vault1 contributing first, Vault2 holding an
undecryptable blob and Vault3 holding a good one, the cycle ends in the
decryption error — Vault3 is never processed, no matrix or portfolio is
produced — while the `tvl_transfer` already sent to Vault1 stands (it is
the error's payload). -/
theorem C1_counterexample :
    worker_cycle exKeys 3 exQueuePartial =
      .error ([(1, VaultMsg.tvl_transfer 40)], .authenticationError) := by
  norm_num [worker_cycle, gather, dictInsert, process_states, process_vault,
    decryptBlob, exKeys, exQueuePartial, exBlob1, exBadBlob, exBlob2]

/-- C1 amended: a decryption failure in the decrypt-and-weight step is not
swallowed and the Holder is not skipped — the error propagates out of the
per-Holder loop, aborting the rest of the cycle: the `DebitRequested`
messages already sent to the Holders processed before the failing one
stand (they are the error's payload), Holders after it are never
processed, and no matrix or portfolio is produced (the worker task
terminates). -/
theorem C1_decrypt_error_propagates (key_array : List Nat)
    (pre post : List (Nat × VaultState)) (idx : Nat) (vs : VaultState)
    (b : Blob) (e : CryptoError) (contribs : List (Nat × ℚ × Intent))
    (hpre : process_states key_array pre = .ok contribs)
    (hledger : vs.internal_ledger_last_state = some b)
    (hdec : decryptBlob (key_array.getD (idx - 1) 0) b = .error e) :
    process_states key_array (pre ++ (idx, vs) :: post) =
      .error (contribs, e) := by
  induction pre generalizing contribs with
  | nil =>
      simp only [process_states] at hpre
      cases hpre
      simp only [List.nil_append, process_states, process_vault, hledger, hdec]
  | cons hd tl ih =>
      obtain ⟨i2, vs2⟩ := hd
      cases hpv : process_vault key_array i2 vs2 with
      | error e2 =>
          simp only [process_states, hpv] at hpre
          exact Except.noConfusion hpre
      | ok c =>
          cases hr : process_states key_array tl with
          | error pe =>
              obtain ⟨cs, e2⟩ := pe
              cases c with
              | none =>
                  simp only [process_states, hpv, hr] at hpre
                  exact Except.noConfusion hpre
              | some tp =>
                  obtain ⟨t, p⟩ := tp
                  simp only [process_states, hpv, hr] at hpre
                  exact Except.noConfusion hpre
          | ok rc =>
              have hih := ih rc hr
              cases c with
              | none =>
                  simp only [process_states, hpv, hr] at hpre
                  cases hpre
                  simp only [List.cons_append, process_states, hpv,
                    List.append_eq, hih]
              | some tp =>
                  obtain ⟨t, p⟩ := tp
                  simp only [process_states, hpv, hr] at hpre
                  cases hpre
                  simp only [List.cons_append, process_states, hpv,
                    List.append_eq, hih]

/-- C1 witness: the amended theorem at a concrete input — Vault1 (with a
decryptable intent) processes fine and its debit stands in the error
payload, Vault2's bad ciphertext aborts the loop. -/
theorem C1_decrypt_error_propagates_witness :
    process_states exKeys [(1, ⟨40, some exBlob1⟩)] =
      .ok [(1, 40, [("B", 1)])] ∧
    (⟨50, some exBadBlob⟩ : VaultState).internal_ledger_last_state =
      some exBadBlob ∧
    decryptBlob (exKeys.getD (2 - 1) 0) exBadBlob =
      .error .authenticationError ∧
    process_states exKeys
        ([(1, ⟨40, some exBlob1⟩)] ++ (2, ⟨50, some exBadBlob⟩) ::
          [(3, ⟨10, some exBlob2⟩)]) =
      .error ([(1, 40, [("B", 1)])], .authenticationError) :=
  ⟨by norm_num [process_states, process_vault, decryptBlob, exKeys, exBlob1],
   rfl,
   by simp [decryptBlob, exKeys, exBadBlob],
   C1_decrypt_error_propagates exKeys [(1, ⟨40, some exBlob1⟩)]
     [(3, ⟨10, some exBlob2⟩)] 2 ⟨50, some exBadBlob⟩ exBadBlob
     .authenticationError [(1, 40, [("B", 1)])]
     (by norm_num [process_states, process_vault, decryptBlob, exKeys, exBlob1])
     rfl
     (by simp [decryptBlob, exKeys, exBadBlob])⟩

/- ## Claim C3 -/

/-- C3: the claim says settlement sends each `BalanceSet` to the Holder
whose allocation column earned the P&L. The source addresses the messages
positionally (`Vault{i + 1}` for column i, `main.py` lines 190-195), while
the matrix only has columns for contributing vaults: in a cycle where only
Vault2 contributed (column {A: 50}, active balance 50), the next
settlement with a 2 percent return on A sends `update_tvl 51` to Vault1 —
the wrong Holder — and nothing to Vault2. -/
theorem C3_settlement_misdirected :
    worker_cycle exKeys 3 exQueue =
      .ok ⟨some [[("A", 50)]], [(2, VaultMsg.tvl_transfer 50)],
           some [("A", 50)], []⟩ ∧
    settle_sends [[("A", 50)]] exReturns = [(1, VaultMsg.update_tvl 51)] := by
  constructor
  · norm_num [worker_cycle, gather, dictInsert, process_states, process_vault,
      decryptBlob, exKeys, exQueue, exBlob2, scaleIntent, final_portfolio,
      matrixAssets, lookupW]
  · norm_num [settle_sends, matrixAssets, colActive, colPnL, lookupW,
      exReturns, List.enum]

/- ## Claim C6 -/

/-- C6: the gather step consumes exactly N messages before decryption
starts. Given the N vault replies at the head of the worker's queue (in
any order, one per vault), the gather loop returns exactly those N
replies, leaves the rest of the queue untouched, and the remainder of the
cycle (decrypt, weight, aggregate) is a function of those N replies
alone. -/
theorem C6_gather_completeness (key_array : List Nat)
    (replies : List (Nat × VaultState)) (rest : List WorkerMsg)
    (h : (replies.map Prod.fst).Nodup) :
    gather replies.length
        (replies.map (fun p => WorkerMsg.vault_state p.1 p.2) ++ rest) [] =
      (replies, rest) ∧
    worker_cycle key_array replies.length
        (replies.map (fun p => WorkerMsg.vault_state p.1 p.2) ++ rest) =
      (match process_states key_array replies with
        | .error (cs, e) =>
            .error (cs.map (fun c => (c.1, VaultMsg.tvl_transfer c.2.1)), e)
        | .ok contribs =>
            let portfolio_dfs := contribs.map (fun c => scaleIntent c.2.1 c.2.2)
            let sends := contribs.map (fun c => (c.1, VaultMsg.tvl_transfer c.2.1))
            if portfolio_dfs.isEmpty then .ok ⟨none, sends, none, rest⟩
            else .ok ⟨some portfolio_dfs, sends,
                  some (final_portfolio portfolio_dfs), rest⟩) := by
  have hg := gather_replies replies rest [] (by simpa using h)
  simp only [List.nil_append] at hg
  exact ⟨hg, by simp only [worker_cycle, hg]⟩

/-- C6 witness: the gather theorem at a concrete two-vault queue with a
trailing extra message that is left unconsumed. -/
theorem C6_gather_completeness_witness :
    (([(1, ⟨40, none⟩), (2, ⟨50, some exBlob2⟩)] :
        List (Nat × VaultState)).map Prod.fst).Nodup ∧
    gather 2
        ([(1, (⟨40, none⟩ : VaultState)), (2, ⟨50, some exBlob2⟩)].map
          (fun p => WorkerMsg.vault_state p.1 p.2) ++ [WorkerMsg.other "x"]) [] =
      ([(1, ⟨40, none⟩), (2, ⟨50, some exBlob2⟩)], [WorkerMsg.other "x"]) :=
  ⟨by decide,
   (C6_gather_completeness exKeys [(1, ⟨40, none⟩), (2, ⟨50, some exBlob2⟩)]
     [WorkerMsg.other "x"] (by decide)).1⟩

/- ## Claim C10 -/

/-- C10: a Holder whose gathered snapshot has non-positive idle balance is
excluded from the cycle — it contributes no column and receives no
`DebitRequested` (`tvl_transfer`) message, even if it holds a decryptable
intent — and every contribution that does make it into the matrix was
weighted by a strictly positive transferred balance. -/
theorem C10_nonpositive_excluded (key_array : List Nat)
    (sts : List (Nat × VaultState)) (contribs : List (Nat × ℚ × Intent))
    (idx : Nat) (vs : VaultState)
    (h : process_states key_array sts = .ok contribs)
    (hnodup : (sts.map Prod.fst).Nodup)
    (hmem : (idx, vs) ∈ sts)
    (htvl : ¬ 0 < vs.tvl) :
    idx ∉ contribs.map (fun c => c.1) ∧
    (∀ t : ℚ, (idx, VaultMsg.tvl_transfer t) ∉
      contribs.map (fun c => (c.1, VaultMsg.tvl_transfer c.2.1))) ∧
    (∀ x ∈ contribs, 0 < x.2.1) := by
  have hkey : idx ∉ contribs.map (fun c => c.1) := by
    induction sts generalizing contribs with
    | nil => simp at hmem
    | cons hd tl ih =>
        obtain ⟨i2, vs2⟩ := hd
        cases hpv : process_vault key_array i2 vs2 with
        | error e2 =>
            simp only [process_states, hpv] at h
            exact Except.noConfusion h
        | ok c =>
            cases hr : process_states key_array tl with
            | error pe =>
                obtain ⟨cs, e2⟩ := pe
                cases c with
                | none =>
                    simp only [process_states, hpv, hr] at h
                    exact Except.noConfusion h
                | some tp =>
                    obtain ⟨t, p⟩ := tp
                    simp only [process_states, hpv, hr] at h
                    exact Except.noConfusion h
            | ok rc =>
                simp only [process_states, hpv, hr] at h
                have htlkeys := process_states_keys_sub key_array tl rc hr
                have hnodup2 : (tl.map Prod.fst).Nodup :=
                  (List.nodup_cons.mp (by simpa using hnodup)).2
                have hheadnot : i2 ∉ tl.map Prod.fst :=
                  (List.nodup_cons.mp (by simpa using hnodup)).1
                rcases List.mem_cons.mp hmem with hm1 | hm2
                · obtain ⟨h1, h2⟩ := Prod.mk.injEq .. ▸ hm1
                  subst h1
                  subst h2
                  have hc : c = none :=
                    process_vault_none_of_nonpos key_array idx vs c hpv htvl
                  subst hc
                  cases h
                  intro hmemk
                  obtain ⟨x, hx, hx2⟩ := List.mem_map.mp hmemk
                  exact hheadnot (hx2 ▸ htlkeys x hx)
                · have hidxtl : idx ∈ tl.map Prod.fst :=
                    List.mem_map.mpr ⟨(idx, vs), hm2, rfl⟩
                  have hne : i2 ≠ idx := fun he => hheadnot (he ▸ hidxtl)
                  have hrec := ih rc hr hnodup2 hm2
                  cases c with
                  | none =>
                      cases h
                      exact hrec
                  | some tp =>
                      obtain ⟨t, p⟩ := tp
                      cases h
                      intro hmemk
                      rcases List.mem_map.mp hmemk with ⟨x, hx, hx2⟩
                      rcases List.mem_cons.mp hx with hx3 | hx4
                      · subst hx3
                        exact hne hx2
                      · exact hrec (List.mem_map.mpr ⟨x, hx4, hx2⟩)
  refine ⟨hkey, ?_, process_states_pos key_array sts contribs h⟩
  intro t hmemt
  obtain ⟨x, hx, hx2⟩ := List.mem_map.mp hmemt
  have : x.1 = idx := congrArg Prod.fst hx2
  exact hkey (List.mem_map.mpr ⟨x, hx, this⟩)

/-- C10 witness: with Vault1 idle at 0 but holding a decryptable intent
and Vault2 idle at 50, the cycle contributes only Vault2: Vault1 is absent
from the contributions and receives no transfer. -/
theorem C10_nonpositive_excluded_witness :
    process_states exKeys
        [(1, ⟨0, some ⟨10, [("B", 1)], false, false⟩⟩), (2, ⟨50, some exBlob2⟩)] =
      .ok [(2, 50, [("A", 1)])] ∧
    (([(1, (⟨0, some ⟨10, [("B", 1)], false, false⟩⟩ : VaultState)),
        (2, ⟨50, some exBlob2⟩)].map Prod.fst).Nodup) ∧
    ¬ (0:ℚ) < 0 ∧
    (1 ∉ ([(2, 50, [("A", 1)])] :
        List (Nat × ℚ × Intent)).map (fun c => c.1)) :=
  ⟨by norm_num [process_states, process_vault, decryptBlob, exKeys, exBlob2],
   by decide, by norm_num,
   (C10_nonpositive_excluded exKeys
     [(1, ⟨0, some ⟨10, [("B", 1)], false, false⟩⟩), (2, ⟨50, some exBlob2⟩)]
     [(2, 50, [("A", 1)])] 1 ⟨0, some ⟨10, [("B", 1)], false, false⟩⟩
     (by norm_num [process_states, process_vault, decryptBlob, exKeys, exBlob2])
     (by decide) (by simp) (by norm_num)).1⟩

/- ## Claim C4 -/

/-- C4: after a cycle in which a non-empty set of Holders contributed
decryptable intents, the portfolio sent to the Sink (and stored there
wholesale) assigns every asset the row-sum of the allocation matrix built
that cycle: the sum over contributing Holders of that Holder's allocation
for the asset. -/
theorem C4_aggregation_consistency (key_array : List Nat) (n : Nat)
    (queue : List WorkerMsg) (contribs : List (Nat × ℚ × Intent))
    (res : CycleResult)
    (hp : process_states key_array (gather n queue []).1 = .ok contribs)
    (hne : contribs ≠ [])
    (hc : worker_cycle key_array n queue = .ok res) :
    ∃ fp, res.final = some fp ∧
      metavault_dispatch ⟨none⟩ (.final_portfolio fp) = ⟨some fp⟩ ∧
      ∀ a : Asset, lookupW fp a =
        (contribs.map (fun c => lookupW (scaleIntent c.2.1 c.2.2) a)).sum := by
  simp only [worker_cycle, hp] at hc
  have hne2 : ¬ (contribs.map (fun c => scaleIntent c.2.1 c.2.2)).isEmpty = true := by
    simp [List.isEmpty_iff, hne]
  rw [if_neg hne2] at hc
  cases hc
  refine ⟨final_portfolio (contribs.map fun c => scaleIntent c.2.1 c.2.2),
    rfl, rfl, ?_⟩
  intro a
  rw [final_portfolio_lookup, List.map_map]
  rfl

/-- C4 witness: the aggregation-consistency theorem at the concrete cycle
in which only Vault2 contributes `{A: 1}` weighted by TVL 50. -/
theorem C4_aggregation_consistency_witness :
    process_states exKeys (gather 3 exQueue []).1 = .ok [(2, 50, [("A", 1)])] ∧
    ([(2, 50, [("A", 1)])] : List (Nat × ℚ × Intent)) ≠ [] ∧
    worker_cycle exKeys 3 exQueue =
      .ok ⟨some [[("A", 50)]], [(2, VaultMsg.tvl_transfer 50)],
           some [("A", 50)], []⟩ ∧
    ∃ fp, (⟨some [[("A", 50)]], [(2, VaultMsg.tvl_transfer 50)],
           some [("A", 50)], []⟩ : CycleResult).final = some fp ∧
      metavault_dispatch ⟨none⟩ (.final_portfolio fp) = ⟨some fp⟩ ∧
      ∀ a : Asset, lookupW fp a =
        (([(2, 50, [("A", 1)])] : List (Nat × ℚ × Intent)).map
          (fun c => lookupW (scaleIntent c.2.1 c.2.2) a)).sum :=
  ⟨by norm_num [gather, dictInsert, process_states, process_vault,
      decryptBlob, exKeys, exQueue, exBlob2],
   by simp,
   by norm_num [worker_cycle, gather, dictInsert, process_states,
      process_vault, decryptBlob, exKeys, exQueue, exBlob2, scaleIntent,
      final_portfolio, matrixAssets, lookupW],
   C4_aggregation_consistency exKeys 3 exQueue [(2, 50, [("A", 1)])]
     ⟨some [[("A", 50)]], [(2, VaultMsg.tvl_transfer 50)],
      some [("A", 50)], []⟩
     (by norm_num [gather, dictInsert, process_states, process_vault,
        decryptBlob, exKeys, exQueue, exBlob2])
     (by simp)
     (by norm_num [worker_cycle, gather, dictInsert, process_states,
        process_vault, decryptBlob, exKeys, exQueue, exBlob2, scaleIntent,
        final_portfolio, matrixAssets, lookupW])⟩

/- ## Claim C8 -/

/-- C8: decrypting with the same key round-trips encryption. Whenever the
underlying AEAD primitive and the payload serializer round-trip (the
documented contract of AES-GCM and `json.dumps`/`json.loads`, both
external libraries), and the nonce has the 12 bytes `encrypt_json_dict`
prepends, `decrypt_json_dict`'s split of the blob at byte 12 recovers
exactly the nonce and ciphertext, so the payload comes back unchanged. -/
theorem C8_round_trip {α : Type} (A : AEADModel) (C : CodecModel α)
    (aes_key nonce : List Nat) (p : α)
    (hA : ∀ k n2 m, A.dec k n2 (A.enc k n2 m) = .ok m)
    (hC : ∀ q, C.deser (C.ser q) = .ok q)
    (hn : nonce.length = 12) :
    decrypt_json_dict A C aes_key (encrypt_json_dict A C aes_key nonce p) =
      .ok p := by
  simp only [decrypt_json_dict, encrypt_json_dict]
  have ht : (nonce ++ A.enc aes_key nonce (C.ser p)).take 12 = nonce := by
    rw [← hn, List.take_left]
  have hd : (nonce ++ A.enc aes_key nonce (C.ser p)).drop 12 =
      A.enc aes_key nonce (C.ser p) := by
    rw [← hn, List.drop_left]
  rw [ht, hd, hA aes_key nonce (C.ser p)]
  exact hC p

/-- C8 witness: the round-trip theorem at a concrete key, nonce and
payload, with concrete round-tripping instances for the external AEAD and
serializer. -/
theorem C8_round_trip_witness :
    (∀ k n2 m, idAEAD.dec k n2 (idAEAD.enc k n2 m) = .ok m) ∧
    (∀ q, natCodec.deser (natCodec.ser q) = .ok q) ∧
    (List.replicate 12 0).length = 12 ∧
    decrypt_json_dict idAEAD natCodec [7]
        (encrypt_json_dict idAEAD natCodec [7] (List.replicate 12 0) 42) =
      .ok 42 :=
  ⟨fun _ _ _ => rfl, fun _ => rfl, rfl,
   C8_round_trip idAEAD natCodec [7] (List.replicate 12 0) 42
     (fun _ _ _ => rfl) (fun _ => rfl) rfl⟩

/- ## Claim C9 -/

/-- C9 counterexample: the claim says the projection returns the balance
of the most recently observed snapshot, and in particular 0 after a
zero-balance snapshot. But `get_state` masks zero balances
(`simulator_integration.py` lines 54-57): after observing Vault1 at 50 and
then at 0, the fetched value is 50, not 0. -/
theorem C9_counterexample :
    get_state_tvl (update_state_vault
        (update_state_vault ⟨[], []⟩ "Vault1" ⟨50, none⟩) "Vault1" ⟨0, none⟩)
      "Vault1" = some 50 ∧ (50:ℚ) ≠ 0 := by
  constructor
  · norm_num [get_state_tvl, update_state_vault, dictInsert, dictGet]
  · norm_num

/-- C9 amended: after an observation of a Holder, the projection returns
that Holder's just-observed balance when it is strictly positive, and
otherwise the last recorded non-zero balance (falling back to the observed
value when none was ever recorded). -/
theorem C9_last_nonzero_masking (s : SimState) (name : String)
    (st : VaultState) :
    (0 < st.tvl →
      get_state_tvl (update_state_vault s name st) name = some st.tvl) ∧
    (¬ 0 < st.tvl →
      get_state_tvl (update_state_vault s name st) name =
        some ((dictGet s.last_nonzero_tvl name).getD st.tvl)) := by
  constructor
  · intro h
    simp [get_state_tvl, update_state_vault, dictGet_dictInsert, h]
  · intro h
    simp [get_state_tvl, update_state_vault, dictGet_dictInsert, if_neg h]

/-- C9 witness: both branches of the masking theorem at concrete
observations of Vault1. -/
theorem C9_last_nonzero_masking_witness :
    ((0:ℚ) < 50 ∧
      get_state_tvl (update_state_vault ⟨[], []⟩ "Vault1" ⟨50, none⟩)
        "Vault1" = some 50) ∧
    (¬ (0:ℚ) < 0 ∧
      get_state_tvl
          (update_state_vault ⟨[("Vault1", ⟨50, none⟩)], [("Vault1", 50)]⟩
            "Vault1" ⟨0, none⟩) "Vault1" =
        some ((dictGet [("Vault1", (50:ℚ))] "Vault1").getD 0)) :=
  ⟨⟨by norm_num,
    (C9_last_nonzero_masking ⟨[], []⟩ "Vault1" ⟨50, none⟩).1 (by norm_num)⟩,
   ⟨by norm_num,
    (C9_last_nonzero_masking ⟨[("Vault1", ⟨50, none⟩)], [("Vault1", 50)]⟩
      "Vault1" ⟨0, none⟩).2 (by norm_num)⟩⟩

end Orion
